import Mathlib

/-
Verification of the in-memory event store service in app.py.

The service keeps a mutable list of Event records (an id and a title) and
exposes three handlers: create_event (POST), update_event (PATCH) and
delete_event (DELETE).  Each handler is modelled as a pure function from the
current list of events (and the parsed request body) to a response paired
with the new list of events.  The parsed JSON body is an Option JsonVal:
none models a body that is absent or unparsable, some d the parsed value d.
Python dynamic semantics that matter observably are kept: truthiness of the
parsed value, the membership operator on dicts, lists and strings, raising
TypeError on other operands, and subscripting.  An uncaught exception is
modelled as the error500 response.
-/

/-- A parsed JSON value, as returned by request.get_json in app.py. -/
inductive JsonVal where
  | null
  | bool (b : Bool)
  | num (n : Int)
  | str (s : String)
  | arr (elems : List JsonVal)
  | obj (fields : List (String × JsonVal))

/-- Python truthiness of a parsed JSON value, as tested by the expression
not data in app.py lines 52 and 92. -/
def JsonVal.truthy : JsonVal → Bool
  | .null => false
  | .bool b => b
  | .num n => n != 0
  | .str s => s != ""
  | .arr elems => !elems.isEmpty
  | .obj fields => !fields.isEmpty

/-- Whether the pattern occurs contiguously at the head of the character list. -/
def charsStartWith : List Char → List Char → Bool
  | [], _ => true
  | _ :: _, [] => false
  | p :: ps, c :: cs => p == c && charsStartWith ps cs

/-- Whether the pattern occurs contiguously anywhere in the character list;
models the Python substring test performed by the membership operator on
strings. -/
def charsHaveSub (pat : List Char) : List Char → Bool
  | [] => pat.isEmpty
  | c :: cs => charsStartWith pat (c :: cs) || charsHaveSub pat cs

/-- Python membership test key in data from app.py lines 52 and 92: key lookup
on dicts, element equality on lists, substring test on strings, and a
TypeError (modelled as Except.error) on every other operand. -/
def pyContains (key : String) : JsonVal → Except Unit Bool
  | .obj fields => .ok (fields.any (fun p => p.1 == key))
  | .arr elems => .ok (elems.any (fun v =>
      match v with
      | .str s => s == key
      | _ => false))
  | .str s => .ok (charsHaveSub key.toList s.toList)
  | _ => .error ()

/-- Python subscript data[key] from app.py lines 59 and 96: value lookup on
dicts (KeyError when absent), TypeError on every other operand; both
exceptions are modelled as Except.error. -/
def pySubscript (key : String) : JsonVal → Except Unit JsonVal
  | .obj fields =>
    match fields.find? (fun p => p.1 == key) with
    | some p => .ok p.2
    | none => .error ()
  | _ => .error ()

/-- Value stored under a key of a JSON object, when present. -/
def objLookup (fields : List (String × JsonVal)) (key : String) : Option JsonVal :=
  (fields.find? (fun p => p.1 == key)).map (fun p => p.2)

/-- An Event record from app.py: an id and a title.  The title holds whatever
JSON value the caller supplied. -/
structure Event where
  id : Nat
  title : JsonVal

/-- Serialization Event.to_dict from app.py line 12. -/
def Event.to_dict (e : Event) : JsonVal :=
  .obj [("id", .num (e.id : Int)), ("title", e.title)]

/-- The seed collection from app.py lines 15 to 18. -/
def seedEvents : List Event :=
  [⟨1, .str "Tech Meetup"⟩, ⟨2, .str "Python Workshop"⟩]

/-- An HTTP response from a handler: a JSON body with a status code, an empty
body with a status code, or the uncaught-exception page Flask produces when a
handler raises. -/
inductive Response where
  | json (status : Nat) (body : JsonVal)
  | empty (status : Nat)
  | error500

/-- Status code of a response; an uncaught exception surfaces as 500. -/
def Response.status : Response → Nat
  | .json s _ => s
  | .empty s => s
  | .error500 => 500

/-- Error body produced by app.py lines 53 and 93. -/
def missingTitleBody : JsonVal :=
  .obj [("error", .str "Missing required field: title")]

/-- Error body produced by app.py lines 86 and 119. -/
def notFoundBody (event_id : Nat) : JsonVal :=
  .obj [("error", .str ("Event with ID " ++ toString event_id ++ " not found"))]

/-- Helper find_event_by_id from app.py lines 21 to 34: first event whose id
equals event_id, or none. -/
def find_event_by_id (events : List Event) (event_id : Nat) : Option Event :=
  events.find? (fun e => e.id == event_id)

/-- Maximum id in the collection, 0 when it is empty.  The Python expression
max(event.id for event in events) is only evaluated on a nonempty collection,
where it agrees with this function. -/
def maxId : List Event → Nat
  | [] => 0
  | e :: rest => Nat.max e.id (maxId rest)

/-- The id assigned by create_event at app.py line 56: current maximum plus
one, or 1 when the collection is empty. -/
def newIdFor (events : List Event) : Nat :=
  if events.isEmpty then 1 else maxId events + 1

/-- Handler create_event from app.py lines 38 to 63. -/
def create_event (events : List Event) (data : Option JsonVal) :
    Response × List Event :=
  match data with
  | none => (.json 400 missingTitleBody, events)
  | some d =>
    if !d.truthy then (.json 400 missingTitleBody, events)
    else
      match pyContains "title" d with
      | .error _ => (.error500, events)
      | .ok false => (.json 400 missingTitleBody, events)
      | .ok true =>
        match pySubscript "title" d with
        | .error _ => (.error500, events)
        | .ok v =>
          let new_event : Event := ⟨newIdFor events, v⟩
          (.json 201 new_event.to_dict, events ++ [new_event])

/-- Replacement of the title of the first event whose id equals event_id,
leaving every other element untouched; models the in-place assignment
event.title = data[...] at app.py line 96, since the object found by
find_event_by_id is the first match in the list. -/
def updateFirst (events : List Event) (event_id : Nat) (v : JsonVal) :
    List Event :=
  match events with
  | [] => []
  | e :: rest =>
    if e.id == event_id then { e with title := v } :: rest
    else e :: updateFirst rest event_id v

/-- Handler update_event from app.py lines 67 to 99: lookup first, then body
validation, then the in-place title update. -/
def update_event (events : List Event) (event_id : Nat)
    (data : Option JsonVal) : Response × List Event :=
  match find_event_by_id events event_id with
  | none => (.json 404 (notFoundBody event_id), events)
  | some event =>
    match data with
    | none => (.json 400 missingTitleBody, events)
    | some d =>
      if !d.truthy then (.json 400 missingTitleBody, events)
      else
        match pyContains "title" d with
        | .error _ => (.error500, events)
        | .ok false => (.json 400 missingTitleBody, events)
        | .ok true =>
          match pySubscript "title" d with
          | .error _ => (.error500, events)
          | .ok v =>
            let updated : Event := ⟨event.id, v⟩
            (.json 200 updated.to_dict, updateFirst events event_id v)

/-- Removal of the first event whose id equals event_id; models
events.remove(event) at app.py line 122, since the object found by
find_event_by_id sits at the position of the first id match and every
earlier element is a different object. -/
def removeFirst (events : List Event) (event_id : Nat) : List Event :=
  match events with
  | [] => []
  | e :: rest =>
    if e.id == event_id then rest else e :: removeFirst rest event_id

/-- Handler delete_event from app.py lines 103 to 125. -/
def delete_event (events : List Event) (event_id : Nat) :
    Response × List Event :=
  match find_event_by_id events event_id with
  | none => (.json 404 (notFoundBody event_id), events)
  | some _ => (.empty 204, removeFirst events event_id)

/-- One incoming request, dispatched to a handler by the router. -/
inductive Op where
  | create (data : Option JsonVal)
  | update (event_id : Nat) (data : Option JsonVal)
  | delete (event_id : Nat)

/-- Whether the request is a delete. -/
def Op.isDelete : Op → Bool
  | .delete _ => true
  | _ => false

/-- Dispatch of one request to its handler. -/
def step (events : List Event) : Op → Response × List Event
  | .create data => create_event events data
  | .update event_id data => update_event events event_id data
  | .delete event_id => delete_event events event_id

/-- State of the collection after a sequence of requests. -/
def run (events : List Event) : List Op → List Event
  | [] => events
  | op :: ops => run (step events op).2 ops

/-- The id field of a 201 Created response body, when the response is one;
only create_event produces status 201. -/
def respCreatedId : Response → Option Int
  | .json 201 (.obj (("id", .num i) :: _)) => some i
  | _ => none

/-- The ids returned by the successful creates of a request sequence, in
order. -/
def createdIds (events : List Event) : List Op → List Int
  | [] => []
  | op :: ops =>
    let r := step events op
    match respCreatedId r.1 with
    | some i => i :: createdIds r.2 ops
    | none => createdIds r.2 ops

theorem mem_le_maxId {s : List Event} {e : Event} (h : e ∈ s) : e.id ≤ maxId s := by
  induction s with
  | nil => cases h
  | cons x rest ih =>
    rcases List.mem_cons.mp h with h' | h'
    · subst h'; exact Nat.le_max_left _ _
    · exact le_trans (ih h') (Nat.le_max_right _ _)

theorem lt_newIdFor {s : List Event} {e : Event} (h : e ∈ s) : e.id < newIdFor s := by
  cases s with
  | nil => cases h
  | cons x rest =>
    simp only [newIdFor, List.isEmpty_cons, Bool.false_eq_true, if_false]
    exact Nat.lt_succ_of_le (mem_le_maxId h)

theorem objLookup_parts {fields : List (String × JsonVal)} {key : String} {v : JsonVal}
    (h : objLookup fields key = some v) :
    fields.isEmpty = false ∧ fields.any (fun p => p.1 == key) = true ∧
      pySubscript key (.obj fields) = .ok v := by
  unfold objLookup at h
  rcases Option.map_eq_some'.mp h with ⟨p, hp, hpv⟩
  refine ⟨?_, ?_, ?_⟩
  · cases fields with
    | nil => simp [List.find?] at hp
    | cons a rest => rfl
  · have hmem := List.mem_of_find?_eq_some hp
    have hpk := List.find?_some hp
    exact List.any_eq_true.mpr ⟨p, hmem, hpk⟩
  · simp [pySubscript, hp, hpv]

theorem create_event_success (s : List Event) (fields : List (String × JsonVal))
    (v : JsonVal) (h : objLookup fields "title" = some v) :
    create_event s (some (.obj fields)) =
      (.json 201 (.obj [("id", .num (newIdFor s : Int)), ("title", v)]),
        s ++ [⟨newIdFor s, v⟩]) := by
  obtain ⟨hne, hany, hsub⟩ := objLookup_parts h
  simp [create_event, JsonVal.truthy, hne, pyContains, hany, hsub, Event.to_dict]

theorem update_event_not_found {s : List Event} {eid : Nat}
    (h : find_event_by_id s eid = none) (data : Option JsonVal) :
    update_event s eid data = (.json 404 (notFoundBody eid), s) := by
  simp [update_event, h]

theorem delete_event_not_found {s : List Event} {eid : Nat}
    (h : find_event_by_id s eid = none) :
    delete_event s eid = (.json 404 (notFoundBody eid), s) := by
  simp [delete_event, h]

theorem delete_event_found {s : List Event} {eid : Nat} {e : Event}
    (h : find_event_by_id s eid = some e) :
    delete_event s eid = (.empty 204, removeFirst s eid) := by
  simp [delete_event, h]

theorem find_event_decomp {s : List Event} {eid : Nat} {e : Event}
    (h : find_event_by_id s eid = some e) :
    e.id = eid ∧ ∃ pre post, s = pre ++ e :: post ∧ ∀ x ∈ pre, x.id ≠ eid := by
  induction s with
  | nil => simp [find_event_by_id] at h
  | cons a rest ih =>
    by_cases ha : a.id = eid
    · have : find_event_by_id (a :: rest) eid = some a := by
        simp [find_event_by_id, List.find?_cons_of_pos, ha]
      rw [this] at h
      obtain rfl := Option.some_injective _ h
      exact ⟨ha, [], rest, rfl, by simp⟩
    · have hstep : find_event_by_id (a :: rest) eid = find_event_by_id rest eid := by
        simp only [find_event_by_id]
        exact List.find?_cons_of_neg _ (by simp [ha])
      rw [hstep] at h
      obtain ⟨heid, pre, post, hsplit, hpre⟩ := ih h
      refine ⟨heid, a :: pre, post, by simp [hsplit], ?_⟩
      intro x hx
      rcases List.mem_cons.mp hx with rfl | hx'
      · exact ha
      · exact hpre x hx'

theorem updateFirst_decomp {pre post : List Event} {e : Event} {eid : Nat}
    (hpre : ∀ x ∈ pre, x.id ≠ eid) (he : e.id = eid) (v : JsonVal) :
    updateFirst (pre ++ e :: post) eid v = pre ++ ⟨e.id, v⟩ :: post := by
  induction pre with
  | nil => simp [updateFirst, he]
  | cons a rest ih =>
    have ha : a.id ≠ eid := hpre a (by simp)
    have hif : (a.id == eid) = false := by simp [ha]
    simp only [List.cons_append, updateFirst, hif, Bool.false_eq_true, if_false,
      List.append_eq]
    rw [ih (fun x hx => hpre x (List.mem_cons_of_mem _ hx))]

theorem update_event_success {s : List Event} {eid : Nat} {e : Event}
    {fields : List (String × JsonVal)} {v : JsonVal}
    (hf : find_event_by_id s eid = some e)
    (h : objLookup fields "title" = some v) :
    update_event s eid (some (.obj fields)) =
      (.json 200 (.obj [("id", .num (e.id : Int)), ("title", v)]),
        updateFirst s eid v) := by
  obtain ⟨hne, hany, hsub⟩ := objLookup_parts h
  simp [update_event, hf, JsonVal.truthy, hne, pyContains, hany, hsub, Event.to_dict]

theorem updateFirst_map_id (s : List Event) (eid : Nat) (v : JsonVal) :
    (updateFirst s eid v).map Event.id = s.map Event.id := by
  induction s with
  | nil => rfl
  | cons a rest ih =>
    by_cases ha : a.id = eid
    · simp [updateFirst, ha]
    · have hif : (a.id == eid) = false := by simp [ha]
      simp only [updateFirst, hif, Bool.false_eq_true, if_false, List.map_cons, ih]

theorem removeFirst_sublist (s : List Event) (eid : Nat) :
    List.Sublist (removeFirst s eid) s := by
  induction s with
  | nil => exact List.Sublist.refl []
  | cons a rest ih =>
    by_cases ha : a.id = eid
    · have hif : (a.id == eid) = true := by simp [ha]
      simp only [removeFirst, hif, if_true]
      exact List.sublist_cons_self a rest
    · have hif : (a.id == eid) = false := by simp [ha]
      simp only [removeFirst, hif, Bool.false_eq_true, if_false]
      exact ih.cons₂ a

theorem removeFirst_no_id {s : List Event} {eid : Nat}
    (hnd : (s.map Event.id).Nodup) :
    ∀ x ∈ removeFirst s eid, x.id ≠ eid := by
  induction s with
  | nil => intro x hx; cases hx
  | cons a rest ih =>
    intro x hx
    rw [List.map_cons, List.nodup_cons] at hnd
    by_cases ha : a.id = eid
    · have hif : (a.id == eid) = true := by simp [ha]
      rw [removeFirst, hif, if_pos rfl] at hx
      intro hxe
      exact hnd.1 (by rw [ha, ← hxe]; exact List.mem_map_of_mem Event.id hx)
    · have hif : (a.id == eid) = false := by simp [ha]
      rw [removeFirst, hif] at hx
      rw [if_neg (by simp)] at hx
      rcases List.mem_cons.mp hx with rfl | hx'
      · exact ha
      · exact ih hnd.2 x hx'

theorem find_removeFirst_eq_none (eid : Nat) {s : List Event}
    (hnd : (s.map Event.id).Nodup) :
    find_event_by_id (removeFirst s eid) eid = none := by
  apply List.find?_eq_none.mpr
  intro x hx
  simpa using removeFirst_no_id hnd x hx

theorem create_event_state (s : List Event) (data : Option JsonVal) :
    (create_event s data).2 = s ∨
      ∃ v, (create_event s data).2 = s ++ [⟨newIdFor s, v⟩] := by
  unfold create_event
  rcases data with _ | d
  · exact Or.inl rfl
  · dsimp only
    split
    · exact Or.inl rfl
    · split
      · exact Or.inl rfl
      · exact Or.inl rfl
      · split
        · exact Or.inl rfl
        · exact Or.inr ⟨_, rfl⟩

theorem create_event_status (s : List Event) (data : Option JsonVal) :
    (create_event s data).2 = s ∨ (create_event s data).1.status = 201 := by
  unfold create_event
  rcases data with _ | d
  · exact Or.inl rfl
  · dsimp only
    split
    · exact Or.inl rfl
    · split
      · exact Or.inl rfl
      · exact Or.inl rfl
      · split
        · exact Or.inl rfl
        · exact Or.inr rfl

theorem update_event_state (s : List Event) (eid : Nat) (data : Option JsonVal) :
    (update_event s eid data).2 = s ∨
      ∃ v, (update_event s eid data).2 = updateFirst s eid v := by
  unfold update_event
  split
  · exact Or.inl rfl
  · rcases data with _ | d
    · exact Or.inl rfl
    · dsimp only
      split
      · exact Or.inl rfl
      · split
        · exact Or.inl rfl
        · exact Or.inl rfl
        · split
          · exact Or.inl rfl
          · exact Or.inr ⟨_, rfl⟩

theorem update_event_status (s : List Event) (eid : Nat) (data : Option JsonVal) :
    (update_event s eid data).2 = s ∨ (update_event s eid data).1.status = 200 := by
  unfold update_event
  split
  · exact Or.inl rfl
  · rcases data with _ | d
    · exact Or.inl rfl
    · dsimp only
      split
      · exact Or.inl rfl
      · split
        · exact Or.inl rfl
        · exact Or.inl rfl
        · split
          · exact Or.inl rfl
          · exact Or.inr rfl

theorem delete_event_state (s : List Event) (eid : Nat) :
    (delete_event s eid).2 = s ∨ (delete_event s eid).2 = removeFirst s eid := by
  unfold delete_event
  split
  · exact Or.inl rfl
  · exact Or.inr rfl

theorem delete_event_status (s : List Event) (eid : Nat) :
    (delete_event s eid).2 = s ∨ (delete_event s eid).1.status = 204 := by
  unfold delete_event
  split
  · exact Or.inl rfl
  · exact Or.inr rfl

theorem maxId_append_singleton (s : List Event) (e : Event) :
    maxId (s ++ [e]) = Nat.max (maxId s) e.id := by
  induction s with
  | nil => simp [maxId, Nat.max_comm]
  | cons a rest ih =>
    show Nat.max a.id (maxId (rest ++ [e])) = Nat.max (Nat.max a.id (maxId rest)) e.id
    rw [ih]
    exact (Nat.max_assoc a.id (maxId rest) e.id).symm

theorem maxId_lt_newIdFor (s : List Event) : maxId s < newIdFor s := by
  cases s with
  | nil => simp [maxId, newIdFor]
  | cons a rest =>
    simp only [newIdFor, List.isEmpty_cons, Bool.false_eq_true, if_false]
    exact Nat.lt_succ_self _

theorem maxId_append_new (s : List Event) (v : JsonVal) :
    maxId (s ++ [⟨newIdFor s, v⟩]) = newIdFor s := by
  rw [maxId_append_singleton]
  exact Nat.max_eq_right (Nat.le_of_lt (maxId_lt_newIdFor s))

theorem updateFirst_maxId (s : List Event) (eid : Nat) (v : JsonVal) :
    maxId (updateFirst s eid v) = maxId s := by
  induction s with
  | nil => rfl
  | cons a rest ih =>
    by_cases ha : a.id = eid
    · have hif : (a.id == eid) = true := by simp [ha]
      simp [updateFirst, hif, maxId]
    · have hif : (a.id == eid) = false := by simp [ha]
      simp only [updateFirst, hif, Bool.false_eq_true, if_false, maxId, ih]

theorem create_event_cases (s : List Event) (data : Option JsonVal) :
    ((create_event s data).2 = s ∧ respCreatedId (create_event s data).1 = none) ∨
      ∃ v, create_event s data =
        (.json 201 (.obj [("id", .num (newIdFor s : Int)), ("title", v)]),
          s ++ [⟨newIdFor s, v⟩]) := by
  unfold create_event
  rcases data with _ | d
  · exact Or.inl ⟨rfl, rfl⟩
  · dsimp only
    split
    · exact Or.inl ⟨rfl, rfl⟩
    · split
      · exact Or.inl ⟨rfl, rfl⟩
      · exact Or.inl ⟨rfl, rfl⟩
      · split
        · exact Or.inl ⟨rfl, rfl⟩
        · exact Or.inr ⟨_, rfl⟩

theorem respCreatedId_update (s : List Event) (eid : Nat) (data : Option JsonVal) :
    respCreatedId (update_event s eid data).1 = none := by
  unfold update_event
  split
  · rfl
  · rcases data with _ | d
    · rfl
    · dsimp only
      split
      · rfl
      · split
        · rfl
        · rfl
        · split
          · rfl
          · rfl

theorem respCreatedId_delete (s : List Event) (eid : Nat) :
    respCreatedId (delete_event s eid).1 = none := by
  unfold delete_event
  split
  · rfl
  · rfl

theorem step_maxId (s : List Event) (op : Op) (hop : op.isDelete = false) :
    (respCreatedId (step s op).1 = none ∧ maxId (step s op).2 = maxId s) ∨
      (respCreatedId (step s op).1 = some ((maxId (step s op).2 : Int)) ∧
        maxId s < maxId (step s op).2) := by
  cases op with
  | create data =>
    simp only [step]
    rcases create_event_cases s data with ⟨h1, h2⟩ | ⟨v, hv⟩
    · exact Or.inl ⟨h2, by rw [h1]⟩
    · right
      rw [hv]
      refine ⟨?_, ?_⟩
      · simp [respCreatedId, maxId_append_new]
      · rw [maxId_append_new]
        exact maxId_lt_newIdFor s
  | update eid data =>
    simp only [step]
    left
    refine ⟨respCreatedId_update s eid data, ?_⟩
    rcases update_event_state s eid data with h | ⟨v, h⟩
    · rw [h]
    · rw [h, updateFirst_maxId]
  | delete eid => cases hop

theorem createdIds_chain : ∀ (ops : List Op) (s : List Event),
    (∀ op ∈ ops, op.isDelete = false) →
    List.Chain (fun a b : Int => a < b) ((maxId s : Int)) (createdIds s ops) := by
  intro ops
  induction ops with
  | nil => intro s _; exact List.Chain.nil
  | cons op rest ih =>
    intro s h
    have hop := h op (List.mem_cons_self op rest)
    have hrest : ∀ o ∈ rest, o.isDelete = false :=
      fun o ho => h o (List.mem_cons_of_mem op ho)
    rcases step_maxId s op hop with ⟨h1, h2⟩ | ⟨h1, h2⟩
    · simp only [createdIds, h1]
      have hc := ih (step s op).2 hrest
      rw [h2] at hc
      exact hc
    · simp only [createdIds, h1]
      exact List.Chain.cons (by exact_mod_cast h2) (ih (step s op).2 hrest)

theorem step_nodup {s : List Event} (op : Op) (hnd : (s.map Event.id).Nodup) :
    (((step s op).2).map Event.id).Nodup := by
  cases op with
  | create data =>
    simp only [step]
    rcases create_event_state s data with h | ⟨v, h⟩
    · rw [h]; exact hnd
    · rw [h, List.map_append, List.map_cons, List.map_nil, List.nodup_append]
      refine ⟨hnd, List.nodup_singleton _, ?_⟩
      intro a ha hb
      rcases List.mem_map.mp ha with ⟨e, he, rfl⟩
      have hlt := lt_newIdFor he
      have : e.id = newIdFor s := by simpa using hb
      omega
  | update eid data =>
    simp only [step]
    rcases update_event_state s eid data with h | ⟨v, h⟩
    · rw [h]; exact hnd
    · rw [h, updateFirst_map_id]; exact hnd
  | delete eid =>
    simp only [step]
    rcases delete_event_state s eid with h | h
    · rw [h]; exact hnd
    · rw [h]
      exact hnd.sublist ((removeFirst_sublist s eid).map Event.id)

theorem run_nodup : ∀ (ops : List Op) (s : List Event),
    (s.map Event.id).Nodup → ((run s ops).map Event.id).Nodup := by
  intro ops
  induction ops with
  | nil => intro s h; exact h
  | cons op rest ih =>
    intro s h
    exact ih _ (step_nodup op h)

/-- Claim C1: for every create request whose JSON body contains the key title,
the assigned id is the current maximum id plus 1 (or 1 on an empty
collection), it is strictly greater than every id present before the call,
the new event is appended, and the response is 201 with the id and title. -/
theorem create_assigns_next_id (s : List Event)
    (fields : List (String × JsonVal)) (v : JsonVal)
    (h : objLookup fields "title" = some v) :
    newIdFor s = (if s.isEmpty then 1 else maxId s + 1) ∧
    (∀ e ∈ s, e.id < newIdFor s) ∧
    create_event s (some (.obj fields)) =
      (.json 201 (.obj [("id", .num (newIdFor s : Int)), ("title", v)]),
        s ++ [⟨newIdFor s, v⟩]) :=
  ⟨rfl, fun _ he => lt_newIdFor he, create_event_success s fields v h⟩

theorem create_assigns_next_id_witness :
    newIdFor seedEvents = 3 ∧
    create_event seedEvents (some (.obj [("title", .str "Demo")])) =
      (.json 201 (.obj [("id", .num 3), ("title", .str "Demo")]),
        seedEvents ++ [⟨3, .str "Demo"⟩]) ∧
    (⟨2, JsonVal.str "Python Workshop"⟩ : Event).id < newIdFor seedEvents :=
  ⟨rfl,
   (create_assigns_next_id seedEvents [("title", .str "Demo")] (.str "Demo") rfl).2.2,
   (create_assigns_next_id seedEvents [("title", .str "Demo")] (.str "Demo") rfl).2.1
     ⟨2, .str "Python Workshop"⟩ (by simp [seedEvents])⟩

/-- Claim C3: in update_event the lookup of event_id happens before body
validation, so when the event does not exist the response is 404 with the
not-found body no matter how invalid the request body is. -/
theorem update_checks_lookup_before_body (s : List Event) (eid : Nat)
    (data : Option JsonVal)
    (hnf : find_event_by_id s eid = none)
    (hbad : data = none ∨ ∃ d, data = some d ∧ pyContains "title" d ≠ .ok true) :
    update_event s eid data = (.json 404 (notFoundBody eid), s) :=
  update_event_not_found hnf data

theorem update_checks_lookup_before_body_witness :
    update_event seedEvents 999 none =
      (.json 404 (notFoundBody 999), seedEvents) :=
  update_checks_lookup_before_body seedEvents 999 none rfl (Or.inl rfl)

/-- Claim C4: at every state reachable from the seed collection the ids are
pairwise distinct, every single request preserves that invariant, update
never changes any id (it only rewrites a title), create only appends after
the existing events, and delete only removes events. -/
theorem ids_nodup_invariant :
    (∀ ops : List Op, ((run seedEvents ops).map Event.id).Nodup) ∧
    (∀ (s : List Event) (op : Op), (s.map Event.id).Nodup →
      (((step s op).2).map Event.id).Nodup) ∧
    (∀ (s : List Event) (eid : Nat) (data : Option JsonVal),
      ((update_event s eid data).2).map Event.id = s.map Event.id) ∧
    (∀ (s : List Event) (data : Option JsonVal),
      ∃ tail, (create_event s data).2 = s ++ tail) ∧
    (∀ (s : List Event) (eid : Nat),
      List.Sublist ((delete_event s eid).2) s) := by
  refine ⟨fun ops => run_nodup ops seedEvents (by decide),
    fun s op h => step_nodup op h, fun s eid data => ?_, fun s data => ?_,
    fun s eid => ?_⟩
  · rcases update_event_state s eid data with h | ⟨v, h⟩
    · rw [h]
    · rw [h, updateFirst_map_id]
  · rcases create_event_state s data with h | ⟨v, h⟩
    · exact ⟨[], by rw [h, List.append_nil]⟩
    · exact ⟨[⟨newIdFor s, v⟩], h⟩
  · rcases delete_event_state s eid with h | h
    · rw [h]
    · rw [h]; exact removeFirst_sublist s eid

theorem ids_nodup_invariant_witness :
    ((run seedEvents [Op.delete 1]).map Event.id).Nodup ∧
    (((step seedEvents (Op.create (some (.obj [("title", .null)])))).2).map
      Event.id).Nodup ∧
    ((update_event seedEvents 1 none).2).map Event.id =
      seedEvents.map Event.id :=
  ⟨ids_nodup_invariant.1 [Op.delete 1],
   ids_nodup_invariant.2.1 seedEvents (Op.create (some (.obj [("title", .null)])))
     (by decide),
   ids_nodup_invariant.2.2.1 seedEvents 1 none⟩

/-- Claim C7: a request answered with status 400 or 404 leaves the collection
exactly as it was; each handler either completes its single mutation or
returns before mutating. -/
theorem error_responses_leave_state_unchanged (s : List Event) (op : Op)
    (h : (step s op).1.status = 400 ∨ (step s op).1.status = 404) :
    (step s op).2 = s := by
  cases op with
  | create data =>
    rcases create_event_status s data with hs | hs
    · exact hs
    · simp only [step] at h ⊢
      rw [hs] at h
      omega
  | update eid data =>
    rcases update_event_status s eid data with hs | hs
    · exact hs
    · simp only [step] at h ⊢
      rw [hs] at h
      omega
  | delete eid =>
    rcases delete_event_status s eid with hs | hs
    · exact hs
    · simp only [step] at h ⊢
      rw [hs] at h
      omega

theorem error_responses_leave_state_unchanged_witness :
    (step seedEvents (Op.create none)).2 = seedEvents ∧
    (step seedEvents (Op.delete 999)).2 = seedEvents :=
  ⟨error_responses_leave_state_unchanged seedEvents (Op.create none) (Or.inl rfl),
   error_responses_leave_state_unchanged seedEvents (Op.delete 999) (Or.inr rfl)⟩

/-- Claim C2 counterexample: ids are not unique across the process lifetime.
After create (id 3), delete 3, create again, the second create also returns
id 3, because create_event recomputes the current maximum and the event
holding the maximum id was deleted in between. -/
theorem create_id_reuse_after_delete :
    createdIds seedEvents
      [Op.create (some (.obj [("title", .str "a")])),
       Op.delete 3,
       Op.create (some (.obj [("title", .str "b")]))] = [3, 3] ∧
    ¬ List.Pairwise (fun a b : Int => a ≠ b)
      (createdIds seedEvents
        [Op.create (some (.obj [("title", .str "a")])),
         Op.delete 3,
         Op.create (some (.obj [("title", .str "b")]))]) := by
  refine ⟨by decide, fun hp => ?_⟩
  have h33 : createdIds seedEvents
      [Op.create (some (.obj [("title", .str "a")])),
       Op.delete 3,
       Op.create (some (.obj [("title", .str "b")]))] = [3, 3] := by decide
  rw [h33] at hp
  exact (List.pairwise_cons.mp hp).1 3 (by simp) rfl

/-- Claim C2 amended: in any request sequence from the seed state that
contains no delete, no two creates return the same id; ids increase strictly
along the sequence.  With deletes in between, an id can be reassigned once
the event holding the maximal id is removed. -/
theorem created_ids_distinct_without_delete (ops : List Op)
    (h : ∀ op ∈ ops, op.isDelete = false) :
    List.Pairwise (fun a b : Int => a ≠ b) (createdIds seedEvents ops) := by
  have hchain := createdIds_chain ops seedEvents h
  have hp : List.Pairwise (fun a b : Int => a < b)
      ((maxId seedEvents : Int) :: createdIds seedEvents ops) :=
    List.chain_iff_pairwise.mp hchain
  exact ((List.pairwise_cons.mp hp).2).imp (fun hlt => ne_of_lt hlt)

theorem created_ids_distinct_without_delete_witness :
    List.Pairwise (fun a b : Int => a ≠ b)
      (createdIds seedEvents
        [Op.create (some (.obj [("title", .str "a")])),
         Op.create (some (.obj [("title", .str "b")]))]) :=
  created_ids_distinct_without_delete
    [Op.create (some (.obj [("title", .str "a")])),
     Op.create (some (.obj [("title", .str "b")]))] (by decide)

theorem create_event_obj_no_title {s : List Event}
    {fields : List (String × JsonVal)}
    (h : objLookup fields "title" = none) :
    create_event s (some (.obj fields)) = (.json 400 missingTitleBody, s) := by
  have hnone : fields.find? (fun p => p.1 == "title") = none :=
    Option.map_eq_none'.mp h
  have hany : fields.any (fun p => p.1 == "title") = false := by
    rw [List.any_eq_false]
    exact fun p hp => by simpa using List.find?_eq_none.mp hnone p hp
  cases hfe : fields.isEmpty
  · simp [create_event, JsonVal.truthy, hfe, pyContains, hany]
  · simp [create_event, JsonVal.truthy, hfe]

theorem update_event_obj_no_title {s : List Event} {eid : Nat} {e : Event}
    {fields : List (String × JsonVal)}
    (hf : find_event_by_id s eid = some e)
    (h : objLookup fields "title" = none) :
    update_event s eid (some (.obj fields)) = (.json 400 missingTitleBody, s) := by
  have hnone : fields.find? (fun p => p.1 == "title") = none :=
    Option.map_eq_none'.mp h
  have hany : fields.any (fun p => p.1 == "title") = false := by
    rw [List.any_eq_false]
    exact fun p hp => by simpa using List.find?_eq_none.mp hnone p hp
  cases hfe : fields.isEmpty
  · simp [update_event, hf, JsonVal.truthy, hfe, pyContains, hany]
  · simp [update_event, hf, JsonVal.truthy, hfe]

/-- Claim C5 counterexample: a request body that parses to the JSON number 5
is truthy, lacks the key title, and yet create_event does not answer 400 with
the missing-title body: the Python membership test raises TypeError on an
integer, which surfaces as an uncaught-exception 500 response. -/
theorem nonobject_body_type_error :
    (JsonVal.num 5).truthy = true ∧
    pyContains "title" (.num 5) = .error () ∧
    create_event seedEvents (some (.num 5)) = (Response.error500, seedEvents) ∧
    Response.error500 ≠ Response.json 400 missingTitleBody :=
  ⟨rfl, rfl, rfl, fun hcontra => Response.noConfusion hcontra⟩

/-- Claim C5 amended: for every create or update request whose body is
absent, unparsable, or parses to a JSON object lacking the key title (the
update case when event_id exists), the response is 400 with exactly the
missing-title body and the collection is unchanged.  A truthy body of
non-object type can instead raise an uncaught TypeError. -/
theorem missing_title_yields_400 (s : List Event) (eid : Nat) (e : Event)
    (data : Option JsonVal)
    (hbad : data = none ∨ ∃ fields, data = some (.obj fields) ∧
      objLookup fields "title" = none)
    (hf : find_event_by_id s eid = some e) :
    create_event s data = (.json 400 missingTitleBody, s) ∧
    update_event s eid data = (.json 400 missingTitleBody, s) := by
  rcases hbad with rfl | ⟨fields, rfl, hnone⟩
  · exact ⟨rfl, by simp [update_event, hf]⟩
  · exact ⟨create_event_obj_no_title hnone, update_event_obj_no_title hf hnone⟩

theorem missing_title_yields_400_witness :
    create_event seedEvents (some (.obj [("name", .str "x")])) =
      (.json 400 missingTitleBody, seedEvents) ∧
    update_event seedEvents 1 (some (.obj [("name", .str "x")])) =
      (.json 400 missingTitleBody, seedEvents) :=
  missing_title_yields_400 seedEvents 1 ⟨1, .str "Tech Meetup"⟩
    (some (.obj [("name", .str "x")]))
    (Or.inr ⟨[("name", .str "x")], rfl, rfl⟩) rfl

/-- Claim C6: deleting an existing event answers 204 with an empty body and
removes the event, so a later update or delete of the same id answers 404
with exactly the not-found body (idempotent failure). -/
theorem delete_then_idempotent_failure (s : List Event) (eid : Nat) (e : Event)
    (data : Option JsonVal)
    (hnd : (s.map Event.id).Nodup)
    (hf : find_event_by_id s eid = some e) :
    delete_event s eid = (.empty 204, removeFirst s eid) ∧
    (∀ x ∈ removeFirst s eid, x.id ≠ eid) ∧
    update_event (removeFirst s eid) eid data =
      (.json 404 (notFoundBody eid), removeFirst s eid) ∧
    delete_event (removeFirst s eid) eid =
      (.json 404 (notFoundBody eid), removeFirst s eid) := by
  have hnone := find_removeFirst_eq_none eid hnd
  exact ⟨delete_event_found hf, removeFirst_no_id hnd,
    update_event_not_found hnone data, delete_event_not_found hnone⟩

theorem delete_then_idempotent_failure_witness :
    delete_event seedEvents 2 = (.empty 204, removeFirst seedEvents 2) ∧
    update_event (removeFirst seedEvents 2) 2 (some (.obj [("title", .str "x")])) =
      (.json 404 (notFoundBody 2), removeFirst seedEvents 2) ∧
    delete_event (removeFirst seedEvents 2) 2 =
      (.json 404 (notFoundBody 2), removeFirst seedEvents 2) :=
  ⟨(delete_then_idempotent_failure seedEvents 2 ⟨2, .str "Python Workshop"⟩
      (some (.obj [("title", .str "x")])) (by decide) rfl).1,
   (delete_then_idempotent_failure seedEvents 2 ⟨2, .str "Python Workshop"⟩
      (some (.obj [("title", .str "x")])) (by decide) rfl).2.2.1,
   (delete_then_idempotent_failure seedEvents 2 ⟨2, .str "Python Workshop"⟩
      (some (.obj [("title", .str "x")])) (by decide) rfl).2.2.2⟩

/-- Claim C8: a successful update replaces only the title of the found event in
place: the response is 200 with the updated id and title, the id sequence,
length and insertion order of the collection are unchanged, and every event
other than the target is untouched. -/
theorem update_replaces_title_in_place (s : List Event) (eid : Nat) (e : Event)
    (fields : List (String × JsonVal)) (v : JsonVal)
    (hf : find_event_by_id s eid = some e)
    (hv : objLookup fields "title" = some v) :
    e.id = eid ∧
    update_event s eid (some (.obj fields)) =
      (.json 200 (.obj [("id", .num (e.id : Int)), ("title", v)]),
        updateFirst s eid v) ∧
    (updateFirst s eid v).map Event.id = s.map Event.id ∧
    (updateFirst s eid v).length = s.length ∧
    ∃ pre post, s = pre ++ e :: post ∧ (∀ x ∈ pre, x.id ≠ eid) ∧
      updateFirst s eid v = pre ++ ⟨e.id, v⟩ :: post := by
  obtain ⟨heid, pre, post, hs, hpre⟩ := find_event_decomp hf
  refine ⟨heid, update_event_success hf hv, updateFirst_map_id s eid v, ?_,
    pre, post, hs, hpre, ?_⟩
  · have hmap := congrArg List.length (updateFirst_map_id s eid v)
    simpa using hmap
  · rw [hs]
    exact updateFirst_decomp hpre heid v

theorem update_replaces_title_in_place_witness :
    update_event seedEvents 1 (some (.obj [("title", .str "Renamed")])) =
      (.json 200 (.obj [("id", .num 1), ("title", .str "Renamed")]),
        updateFirst seedEvents 1 (.str "Renamed")) ∧
    (updateFirst seedEvents 1 (.str "Renamed")).map Event.id =
      seedEvents.map Event.id ∧
    (updateFirst seedEvents 1 (.str "Renamed")).length = seedEvents.length :=
  ⟨(update_replaces_title_in_place seedEvents 1 ⟨1, .str "Tech Meetup"⟩
      [("title", .str "Renamed")] (.str "Renamed") rfl rfl).2.1,
   (update_replaces_title_in_place seedEvents 1 ⟨1, .str "Tech Meetup"⟩
      [("title", .str "Renamed")] (.str "Renamed") rfl rfl).2.2.1,
   (update_replaces_title_in_place seedEvents 1 ⟨1, .str "Tech Meetup"⟩
      [("title", .str "Renamed")] (.str "Renamed") rfl rfl).2.2.2.1⟩

/-- Claim C9: an empty-string title is accepted as valid: presence of the
key title is sufficient, so create answers 201 and update answers 200,
storing the empty string as the title. -/
theorem empty_string_title_accepted (s : List Event) (eid : Nat) (e : Event)
    (fields : List (String × JsonVal))
    (hv : objLookup fields "title" = some (.str ""))
    (hf : find_event_by_id s eid = some e) :
    create_event s (some (.obj fields)) =
      (.json 201 (.obj [("id", .num (newIdFor s : Int)), ("title", .str "")]),
        s ++ [⟨newIdFor s, .str ""⟩]) ∧
    update_event s eid (some (.obj fields)) =
      (.json 200 (.obj [("id", .num (e.id : Int)), ("title", .str "")]),
        updateFirst s eid (.str "")) :=
  ⟨create_event_success s fields _ hv, update_event_success hf hv⟩

theorem empty_string_title_accepted_witness :
    create_event seedEvents (some (.obj [("title", .str "")])) =
      (.json 201 (.obj [("id", .num 3), ("title", .str "")]),
        seedEvents ++ [⟨3, .str ""⟩]) ∧
    update_event seedEvents 2 (some (.obj [("title", .str "")])) =
      (.json 200 (.obj [("id", .num 2), ("title", .str "")]),
        updateFirst seedEvents 2 (.str "")) :=
  empty_string_title_accepted seedEvents 2 ⟨2, .str "Python Workshop"⟩
    [("title", .str "")] rfl rfl

/-- Claim C10: the value under the key title is never type-checked: for every
truthy object body containing the key, create and update succeed whatever the
type of the value, store it verbatim as the title, and echo it back in the
response body. -/
theorem title_value_not_type_checked (s : List Event) (eid : Nat) (e : Event)
    (fields : List (String × JsonVal)) (v : JsonVal)
    (hv : objLookup fields "title" = some v)
    (hf : find_event_by_id s eid = some e) :
    (JsonVal.obj fields).truthy = true ∧
    create_event s (some (.obj fields)) =
      (.json 201 (.obj [("id", .num (newIdFor s : Int)), ("title", v)]),
        s ++ [⟨newIdFor s, v⟩]) ∧
    update_event s eid (some (.obj fields)) =
      (.json 200 (.obj [("id", .num (e.id : Int)), ("title", v)]),
        updateFirst s eid v) := by
  refine ⟨?_, create_event_success s fields v hv, update_event_success hf hv⟩
  have hne := (objLookup_parts hv).1
  simp [JsonVal.truthy, hne]

theorem title_value_not_type_checked_witness :
    create_event seedEvents (some (.obj [("title", .null)])) =
      (.json 201 (.obj [("id", .num 3), ("title", .null)]),
        seedEvents ++ [⟨3, .null⟩]) ∧
    update_event seedEvents 1 (some (.obj [("title", .arr [.num 1, .bool true])])) =
      (.json 200 (.obj [("id", .num 1), ("title", .arr [.num 1, .bool true])]),
        updateFirst seedEvents 1 (.arr [.num 1, .bool true])) :=
  ⟨(title_value_not_type_checked seedEvents 1 ⟨1, .str "Tech Meetup"⟩
      [("title", .null)] .null rfl rfl).2.1,
   (title_value_not_type_checked seedEvents 1 ⟨1, .str "Tech Meetup"⟩
      [("title", .arr [.num 1, .bool true])] (.arr [.num 1, .bool true])
      rfl rfl).2.2⟩
